import Mathlib

/-!
Verification of the concierge-platform stage-graph engine.

This file shallowly embeds the data model and operations of
`src/concierge/core/{state,stage,workflow}.py` and
`src/concierge/engine/{orchestrator,language_engine}.py` and proves the
spec's claims about them.  Python's mutable objects are modelled by
explicit state passing: every method that mutates `self` returns the
updated record; exceptions (`ValueError`, `AttributeError`) are modelled
with `Except`.  The workflow cursor, a `Stage` reference in Python that
always aliases an entry of the `stages` dict, is modelled by the stage's
name, resolved through the stage table on use.
-/

namespace Concierge

/-- A JSON-compatible value stored in a state container.  The engine treats
values opaquely (they are only copied, stored and compared), so scalar
constructors suffice for every claim. -/
inductive Value where
  | vStr (s : String)
  | vNat (n : Nat)
  | vBool (b : Bool)
deriving DecidableEq, Repr

/-- Modelled from the spec: `concierge/core/state.py` is not among the
sources (only its users are).  The spec describes ScopedData as "a flat
key/value store with typed get/set/has" whose "field names are unique
within one container" and which is "mutated only through explicit set
operations".  The underlying Python dict (`State._data`, exposed as the
`data` property) is modelled as an insertion-ordered association list;
`set` overwrites in place when the key exists and appends otherwise,
matching dict assignment. -/
structure State where
  data : List (String × Value)
deriving DecidableEq, Repr

/-- The empty container produced by `State()`. -/
def State.empty : State := ⟨[]⟩

/-- Membership test `state.has(key)`. -/
def State.has (s : State) (k : String) : Bool :=
  s.data.any (fun p => p.1 == k)

/-- Lookup `state.get(key)`; `none` models Python's `None` for an absent key. -/
def State.get (s : State) (k : String) : Option Value :=
  (s.data.find? (fun p => p.1 == k)).map Prod.snd

/-- Write `state.set(key, value)`: dict assignment semantics. -/
def State.set (s : State) (k : String) (v : Value) : State :=
  if s.data.any (fun p => p.1 == k) then
    ⟨s.data.map (fun p => if p.1 == k then (k, v) else p)⟩
  else
    ⟨s.data ++ [(k, v)]⟩

/-- The container's field names in insertion order (`_data.keys()`). -/
def State.keys (s : State) : List String :=
  s.data.map Prod.fst

/-- Modelled from the spec: `concierge/core/construct.py` is not among the
sources.  A prerequisite construct is a Pydantic model whose
`model_fields` enumerate the required field names (the spec: "a list of
prerequisite field-name sets"). -/
structure Construct where
  model_fields : List String
deriving DecidableEq, Repr

/-- Modelled from the spec: `concierge/core/tool.py` is not among the
sources.  A tool is "a named, described unit of work bound to a stage;
takes the stage's scoped data plus caller-supplied arguments, produces a
result or fails".  `exec` receives the stage's local state and the call
arguments and returns the outcome together with the (possibly mutated)
local state. -/
structure Tool where
  name : String
  description : String
  exec : State → List (String × Value) → Except String Value × State

/-- `Stage` from `concierge/core/stage.py`: a named grouping of tools,
stage-local state, allowed outgoing transitions and prerequisite
constructs.  The `tools` dict (tool name → tool, keyed by `tool.name`)
is modelled as a list looked up by name; `substages`/`parent` are unused
by the core transition logic and by every claim, and are omitted. -/
structure Stage where
  name : String
  description : String
  tools : List Tool
  local_state : State
  transitions : List String
  prerequisites : List Construct

/-- `Stage.can_transition_to`: `target_stage in self.transitions`. -/
def Stage.can_transition_to (s : Stage) (target_stage : String) : Bool :=
  s.transitions.contains target_stage

/-- A per-edge state-propagation policy
(`Union[str, List[str]]` in `workflow.py`): the strings `"all"` and
`"none"`, an explicit field list, or any other string (which both
consumers treat like `"none"`: it propagates nothing). -/
inductive PropagationConfig where
  | all
  | none
  | fields (l : List String)
  | other (s : String)
deriving DecidableEq, Repr

/-- `Stage.get_missing_prerequisites` from `stage.py`: the prerequisite
field names satisfied neither by the given (global) state nor by the
propagation policy applied to the source stage's local state.  The
Python set `propagated_fields` is modelled as a list used only through
membership. -/
def Stage.get_missing_prerequisites (self : Stage) (state : State)
    (source_state : Option State) (propagation_config : Option PropagationConfig) :
    List String :=
  let propagated_fields : List String :=
    match source_state, propagation_config with
    | some src, some cfg =>
      match cfg with
      | PropagationConfig.all => State.keys src
      | PropagationConfig.none => []
      | PropagationConfig.fields l => l.filter (fun f => State.has src f)
      | PropagationConfig.other _ => []
    | _, _ => []
  (self.prerequisites.map (fun prereq =>
    prereq.model_fields.filter (fun f =>
      !(State.has state f) && !(propagated_fields.contains f)))).flatten

/-- A Python exception escaping a method: `ValueError` from
`Workflow.get_stage`, `AttributeError` from a missing attribute. -/
inductive PyError where
  | valueError (msg : String)
  | attributeError (msg : String)
deriving DecidableEq, Repr

/-- The exception's text, `str(e)`. -/
def PyError.message : PyError → String
  | PyError.valueError m => m
  | PyError.attributeError m => m

/-- Python's `repr` of a list of strings, used when an f-string
interpolates a list of field names. -/
def pyListRepr (l : List String) : String :=
  "[" ++ String.intercalate ", " (l.map (fun s => "'" ++ s ++ "'")) ++ "]"

/-- `Workflow` from `workflow.py`.  The `stages` dict (name → Stage) is
modelled as a list in registration order with unique names; the cursor
holds the current stage's name (in Python it aliases the dict entry). -/
structure Workflow where
  name : String
  description : String
  stages : List Stage
  initial_stage : Option String
  cursor : Option String
  incoming_edges : List (String × List String)
  state_propagation : List ((String × String) × PropagationConfig)

/-- The sources that list `t` among their transitions, in registration
order, once per occurrence: the inner loop of `_build_incoming_edges`. -/
def Workflow.incoming_for (stages : List Stage) (t : String) : List String :=
  (stages.map (fun s => (s.transitions.filter (fun x => x == t)).map (fun _ => s.name))).flatten

/-- `Workflow._build_incoming_edges`: the reverse-edge mapping, one entry
per registered stage (targets not registered are dropped by the
`if target in self._incoming_edges` guard). -/
def Workflow.build_incoming_edges (w : Workflow) : List (String × List String) :=
  w.stages.map (fun s => (s.name, Workflow.incoming_for w.stages s.name))

/-- `Workflow.add_stage`: registers (or replaces) a stage, records the
initial stage when asked or when none is set yet, and recomputes the
reverse-edge index. -/
def Workflow.add_stage (w : Workflow) (stage : Stage) (initial : Bool) : Workflow :=
  let stages :=
    if w.stages.any (fun s => s.name == stage.name) then
      w.stages.map (fun s => if s.name == stage.name then stage else s)
    else
      w.stages ++ [stage]
  let initial_stage :=
    if initial || w.initial_stage.isNone then some stage.name else w.initial_stage
  let w1 := { w with stages := stages, initial_stage := initial_stage }
  { w1 with incoming_edges := Workflow.build_incoming_edges w1 }

/-- `Workflow.initialize`: resets every stage's local state, recomputes
reverse edges, and sets the cursor to `roots[0]` when some stage has no
incoming edges, else to the first registered stage.  `none` models the
`IndexError` Python raises on a stage-less workflow. -/
def Workflow.initialize (w : Workflow) : Option Workflow :=
  let stages := w.stages.map (fun s => { s with local_state := State.empty })
  let w1 := { w with stages := stages }
  let incoming := Workflow.build_incoming_edges w1
  let roots := (incoming.filter (fun p => p.2.isEmpty)).map (fun p => p.1)
  let w2 := { w1 with incoming_edges := incoming }
  match roots.head? with
  | some r => some { w2 with cursor := some r }
  | Option.none =>
    match stages.head? with
    | some s0 => some { w2 with cursor := some s0.name }
    | Option.none => Option.none

/-- `Workflow.get_stage`: dict lookup raising `ValueError` for an
unregistered name. -/
def Workflow.get_stage (w : Workflow) (stage_name : String) : Except PyError Stage :=
  match w.stages.find? (fun s => s.name == stage_name) with
  | some s => Except.ok s
  | Option.none => Except.error (PyError.valueError
      ("Stage '" ++ stage_name ++ "' not found in workflow '" ++ w.name ++ "'"))

/-- `Workflow.can_transition`: looks the source stage up (raising on an
unknown source) and tests the target against its outgoing list. -/
def Workflow.can_transition (w : Workflow) (from_stage to_stage : String) :
    Except PyError Bool :=
  (Workflow.get_stage w from_stage).map (fun s => Stage.can_transition_to s to_stage)

/-- `Workflow.get_propagation_config`: the per-edge policy, defaulting to
`"all"` for an unconfigured edge. -/
def Workflow.get_propagation_config (w : Workflow) (from_stage to_stage : String) :
    PropagationConfig :=
  ((w.state_propagation.find? (fun p => p.1.1 == from_stage && p.1.2 == to_stage)).map
    (fun p => p.2)).getD PropagationConfig.all

/-- The three shapes of dict `Workflow.validate_transition` returns:
`{"valid": False, "error", "allowed"}`,
`{"valid": False, "reason": "missing_state", "error", "missing"}` and
`{"valid": True}`. -/
inductive ValidationResult where
  | invalid_edge (error : String) (allowed : List String)
  | missing_state (error : String) (missing : List String)
  | valid
deriving DecidableEq, Repr

/-- `Workflow.validate_transition`: rejects a target missing from the
source's outgoing list, else computes the target's missing prerequisites
under the edge's propagation policy. -/
def Workflow.validate_transition (w : Workflow) (from_stage to_stage : String)
    (global_state : State) : Except PyError ValidationResult := do
  let ok ← Workflow.can_transition w from_stage to_stage
  if !ok then
    let src ← Workflow.get_stage w from_stage
    return ValidationResult.invalid_edge
      ("Cannot transition from '" ++ from_stage ++ "' to '" ++ to_stage ++ "'")
      src.transitions
  else
    let source ← Workflow.get_stage w from_stage
    let target ← Workflow.get_stage w to_stage
    let propagation_config := Workflow.get_propagation_config w from_stage to_stage
    let missing := Stage.get_missing_prerequisites target global_state
      (some source.local_state) (some propagation_config)
    if missing.isEmpty then
      return ValidationResult.valid
    else
      return ValidationResult.missing_state
        ("Stage '" ++ to_stage ++ "' requires: " ++ pyListRepr missing) missing

/-- `Workflow.transition_to`: builds the destination's fresh local state
by the edge's propagation policy applied to the cursor stage's local
state (`"all"` copies everything, a field list copies the listed fields
present in the source, anything else leaves it empty), installs it, and
moves the cursor.  `State.has` and a `some` result of `State.get`
coincide (`State.has_eq_isSome_get`), so the guarded `set` of the
field-list branch is written as a match on `get`. -/
def Workflow.transition_to (w : Workflow) (to_stage : String) :
    Except PyError (Workflow × Stage) := do
  let target ← Workflow.get_stage w to_stage
  let new_target :=
    match w.cursor.bind (fun c => w.stages.find? (fun s => s.name == c)) with
    | some from_stage =>
      let config := Workflow.get_propagation_config w from_stage.name to_stage
      let new_state :=
        match config with
        | PropagationConfig.all =>
          from_stage.local_state.data.foldl (fun st p => State.set st p.1 p.2) State.empty
        | PropagationConfig.fields keys =>
          keys.foldl (fun st key =>
            match State.get from_stage.local_state key with
            | some v => State.set st key v
            | Option.none => st) State.empty
        | _ => State.empty
      { target with local_state := new_state }
    | Option.none => { target with local_state := State.empty }
  let stages := w.stages.map (fun s => if s.name == to_stage then new_target else s)
  return ({ w with stages := stages, cursor := some to_stage }, new_target)

/-- The three dict shapes `Workflow.call_tool` returns:
`{"type": "tool_result", "tool", "result"}`,
`{"type": "error", "message", "available"}` and
`{"type": "tool_error", "tool", "error"}`. -/
inductive ToolCallOutcome where
  | tool_result (tool : String) (result : Value)
  | error (message : String) (available : List String)
  | tool_error (tool : String) (error : String)
deriving Repr

/-- `Workflow.call_tool`: looks the tool up in the stage, reporting the
available tool names when it is absent; otherwise executes it against
the stage's local state, converting a raised exception into a
`tool_error` dict.  The tool's in-place mutation of the stage's local
state is installed in either case. -/
def Workflow.call_tool (w : Workflow) (stage_name tool_name : String)
    (args : List (String × Value)) : Except PyError (ToolCallOutcome × Workflow) := do
  let stage ← Workflow.get_stage w stage_name
  match stage.tools.find? (fun t => t.name == tool_name) with
  | Option.none =>
    return (ToolCallOutcome.error
      ("Tool '" ++ tool_name ++ "' not found in stage '" ++ stage.name ++ "'")
      (stage.tools.map (fun t => t.name)), w)
  | some tool =>
    let (res, new_local) := tool.exec stage.local_state args
    let stages := w.stages.map (fun s =>
      if s.name == stage_name then { s with local_state := new_local } else s)
    let w1 := { w with stages := stages }
    match res with
    | Except.ok v => return (ToolCallOutcome.tool_result tool_name v, w1)
    | Except.error e => return (ToolCallOutcome.tool_error tool_name e, w1)

/-- One entry of the orchestrator's history list: the dicts
`{"action": ACTION_METHOD_CALL, "task", "args", "result"}` and
`{"action": ACTION_STAGE_TRANSITION, "from", "to"}` appended by
`orchestrator.py` (the `contracts.py` constants are `"method_call"` and
`"stage_transition"`, asserted by the repository's tests). -/
inductive HistoryEntry where
  | method_call (task : String) (args : List (String × Value)) (result : Value)
  | stage_transition (from_stage to_stage : String)
deriving DecidableEq, Repr

/-- The `Result` union of `concierge/core/results.py`.  `task_result`
stands for the `TaskResult` the orchestrator constructs (`results.py`
itself defines `ToolResult`; see `Orchestrator.execute_method_call`).
The constant `presentation_type` field (always
`ComprehensivePresentation`) is omitted. -/
inductive EngineResult where
  | task_result (task_name : String) (result : Value)
  | transition_result (from_stage to_stage : String)
  | error_result (message : String) (allowed : Option (List String))
  | state_input_required (target_stage : String) (message : String)
      (required_fields : List String)
deriving DecidableEq, Repr

/-- `Orchestrator` from `engine/orchestrator.py`: one workflow instance,
the global state, the append-only history and the pending-transition
slot. -/
structure Orchestrator where
  workflow : Workflow
  session_id : String
  state : State
  history : List HistoryEntry
  pending_transition : Option String

/-- `Orchestrator.__post_init__`: initializes the workflow and resets
global state, history and the pending transition.  `none` models the
`IndexError` `Workflow.initialize` raises on a stage-less workflow. -/
def Orchestrator.create (w : Workflow) (session_id : String) : Option Orchestrator :=
  ( Workflow.initialize w).map (fun w1 =>
    { workflow := w1, session_id := session_id, state := State.empty,
      history := [], pending_transition := Option.none })

/-- `Orchestrator.get_current_stage`: the stage the cursor aliases.  In
Python the cursor is the stage object itself; here the name is resolved
through the stage table.  The `attributeError` branch models the
`AttributeError` a `None` cursor causes at the first attribute access. -/
def Orchestrator.get_current_stage (o : Orchestrator) : Except PyError Stage :=
  match o.workflow.cursor with
  | some c => Workflow.get_stage o.workflow c
  | Option.none =>
    Except.error (PyError.attributeError "'NoneType' object has no attribute 'name'")

/-- `Orchestrator.execute_method_call` as written in `orchestrator.py`
line 43 calls `self.workflow.call_task(...)`, but `Workflow` defines no
attribute `call_task` (its method is `call_tool`), so evaluating the
callee raises `AttributeError` before any tool executes and before
anything is appended to history.  (The module is broken even earlier:
line 11 imports `TaskResult` from `concierge.core.results`, which only
defines `ToolResult`, and line 53 would construct that `TaskResult`;
lines 48 and 120 likewise use `action.task_name` and `stage.tasks`
although the action is built with `tool_name` and stages hold `tools`.) -/
def Orchestrator.execute_method_call (o : Orchestrator) (task_name : String)
    (args : List (String × Value)) : Except PyError (EngineResult × Orchestrator) :=
  Except.error (PyError.attributeError "'Workflow' object has no attribute 'call_task'")

/-- `Orchestrator.execute_stage_transition`: validates the transition
from the cursor stage; on missing prerequisites records the pending
transition and demands the missing fields, on an illegal edge reports
the allowed destinations, and otherwise commits the transition, clears
the pending slot and appends to history. -/
def Orchestrator.execute_stage_transition (o : Orchestrator) (target_stage : String) :
    Except PyError (EngineResult × Orchestrator) := do
  let stage ← Orchestrator.get_current_stage o
  let validation ← Workflow.validate_transition o.workflow stage.name target_stage o.state
  match validation with
  | ValidationResult.missing_state _err missing =>
    return (EngineResult.state_input_required target_stage
      ("To transition to '" ++ target_stage ++ "', please provide: " ++ pyListRepr missing)
      missing,
      { o with pending_transition := some target_stage })
  | ValidationResult.invalid_edge error allowed =>
    return (EngineResult.error_result error (some allowed), o)
  | ValidationResult.valid => do
    let (w1, _target) ← Workflow.transition_to o.workflow target_stage
    return (EngineResult.transition_result stage.name target_stage,
      { o with workflow := w1, pending_transition := Option.none,
               history := o.history ++ [HistoryEntry.stage_transition stage.name target_stage] })

/-- `Orchestrator.populate_state`: writes each supplied key/value pair
into the current stage's local state, in order. -/
def Orchestrator.populate_state (o : Orchestrator) (state_data : List (String × Value)) :
    Except PyError Orchestrator := do
  let current_stage ← Orchestrator.get_current_stage o
  let new_local := state_data.foldl (fun st p => State.set st p.1 p.2) current_stage.local_state
  let stages := o.workflow.stages.map (fun s =>
    if s.name == current_stage.name then { s with local_state := new_local } else s)
  return { o with workflow := { o.workflow with stages := stages } }

/-- The parsed action envelope `LanguageEngine.process` dispatches on:
`handshake`, `method_call` (with `tool` and `args`), `stage_transition`
(with `stage`), `state_input` (with `data`), or an unknown action name. -/
inductive ActionInput where
  | handshake
  | method_call (tool : String) (args : List (String × Value))
  | stage_transition (stage : String)
  | state_input (data : List (String × Value))
  | unknown (action_type : String)

/-- Modelled from the spec: the message-rendering modules
(`concierge/communications/*` bodies and the presentation classes) are
not among the sources, and the spec leaves "text rendering details of
the continuation prompt beyond structural content" out of scope.  Each
constructor records which message kind `LanguageEngine` rendered and the
structured data it was rendered from; `raw_error` is the
`get_error_message` JSON produced when `process` catches an exception. -/
inductive Rendered where
  | stage_message (stage_name : String) (local_state : State)
  | tool_result_message (result : EngineResult)
  | transition_result_message (result : EngineResult)
  | error_message (result : EngineResult)
  | state_input_required_message (result : EngineResult)
  | raw_error (text : String)
deriving DecidableEq, Repr

/-- `LanguageEngine.process` from `engine/language_engine.py`: routes the
envelope to the orchestrator and renders the outcome; every exception is
caught and turned into the `get_error_message` JSON, leaving the
orchestrator as it was when the exception was raised (each raising call
here raises before it mutates anything). -/
def LanguageEngine.process (o : Orchestrator) (input : ActionInput) :
    Rendered × Orchestrator :=
  match input with
  | ActionInput.handshake =>
    match Orchestrator.get_current_stage o with
    | Except.ok stage => (Rendered.stage_message stage.name stage.local_state, o)
    | Except.error e => (Rendered.raw_error (PyError.message e), o)
  | ActionInput.method_call tool args =>
    match Orchestrator.execute_method_call o tool args with
    | Except.ok (r, o1) =>
      match r with
      | EngineResult.task_result _ _ => (Rendered.tool_result_message r, o1)
      | _ => (Rendered.error_message r, o1)
    | Except.error e => (Rendered.raw_error (PyError.message e), o)
  | ActionInput.stage_transition stage =>
    match Orchestrator.execute_stage_transition o stage with
    | Except.ok (r, o1) =>
      match r with
      | EngineResult.transition_result _ _ => (Rendered.transition_result_message r, o1)
      | EngineResult.state_input_required _ _ _ => (Rendered.state_input_required_message r, o1)
      | _ => (Rendered.error_message r, o1)
    | Except.error e => (Rendered.raw_error (PyError.message e), o)
  | ActionInput.state_input data =>
    match Orchestrator.populate_state o data with
    | Except.ok o1 =>
      match Orchestrator.get_current_stage o1 with
      | Except.ok stage => (Rendered.stage_message stage.name stage.local_state, o1)
      | Except.error e => (Rendered.raw_error (PyError.message e), o1)
    | Except.error e => (Rendered.raw_error (PyError.message e), o)
  | ActionInput.unknown action_type =>
    (Rendered.error_message
      (EngineResult.error_result ("Unknown action type: " ++ action_type) Option.none), o)

/-- The spec's description of which fields an edge's propagation policy
satisfies during prerequisite checking: policy "all" satisfies every
field currently present in the source's local data; "none" satisfies
nothing; an explicit field list satisfies only the named fields present
in source data.  Stated against the spec for comparison with the
source-derived `Stage.get_missing_prerequisites`. -/
def satisfied_by_propagation (cfg : PropagationConfig) (src : State) (f : String) : Prop :=
  match cfg with
  | PropagationConfig.all => State.has src f = true
  | PropagationConfig.fields l => f ∈ l ∧ State.has src f = true
  | _ => False

/-- The first stage, in registration order, that no stage (itself
included) transitions into — the spec's "the unique Stage with zero
incoming edges (the graph root)" when exactly one exists.  Stated
against the spec for comparison with the cursor `initialize` picks. -/
def first_root? (w : Workflow) : Option Stage :=
  w.stages.find? (fun s => w.stages.all (fun x => !(x.transitions.contains s.name)))

/-- `Workflow.__init__`: an empty workflow. -/
def Workflow.create (name description : String) : Workflow :=
  { name := name, description := description, stages := [],
    initial_stage := Option.none, cursor := Option.none,
    incoming_edges := [], state_propagation := [] }

/-! ### Concrete fixtures

The stock workflow of `src/tests/test_integration_stock.py` and
`src/examples/simple_stock.py`, used to instantiate the claims at
concrete inputs. -/

/-- The `search` tool of the browse stage: records the searched symbol in
the stage's local state. -/
def searchTool : Tool :=
  { name := "search", description := "Search for stock",
    exec := fun st args =>
      match args.find? (fun p => p.1 == "symbol") with
      | some p => (Except.ok (Value.vStr "found"), State.set st "last_search" p.2)
      | Option.none => (Except.error "missing argument: symbol", st) }

/-- The browse stage: search tool, edges to transact and portfolio. -/
def browseStage : Stage :=
  { name := "browse", description := "Browse stocks", tools := [searchTool],
    local_state := State.empty, transitions := ["transact", "portfolio"],
    prerequisites := [] }

/-- The transact stage: requires `symbol` and `quantity` before entry. -/
def transactStage : Stage :=
  { name := "transact", description := "Transact", tools := [],
    local_state := State.empty, transitions := ["portfolio", "browse"],
    prerequisites := [{ model_fields := ["symbol", "quantity"] }] }

/-- The portfolio stage. -/
def portfolioStage : Stage :=
  { name := "portfolio", description := "View portfolio", tools := [],
    local_state := State.empty, transitions := ["browse"], prerequisites := [] }

/-- The stock workflow: three stages registered in order, an explicit
field-list policy on browse→transact, "none" on transact→portfolio,
"all" on portfolio→browse, and no entry for browse→portfolio. -/
def stockWorkflow : Workflow :=
  { Workflow.add_stage (Workflow.add_stage (Workflow.add_stage
      (Workflow.create "stock_test" "Test stock workflow") browseStage false)
      transactStage false) portfolioStage false with
    state_propagation :=
      [(("browse", "transact"), PropagationConfig.fields ["symbol", "quantity"]),
       (("transact", "portfolio"), PropagationConfig.none),
       (("portfolio", "browse"), PropagationConfig.all)] }

/-- The browse stage mid-session: `last_search` and `symbol` in its local
data, as after a `search` call and a partial data supply. -/
def stockBrowse : Stage :=
  { browseStage with
    local_state := ⟨[("last_search", Value.vStr "AAPL"),
                     ("symbol", Value.vStr "AAPL")]⟩ }

/-- The stock orchestrator session, as `Orchestrator(workflow, session_id)`
leaves it after the search and data supply that produced `stockBrowse`. -/
def stockOrch : Orchestrator :=
  { workflow :=
      { stockWorkflow with
        cursor := some "browse",
        stages := stockWorkflow.stages.map (fun s =>
          if s.name == "browse" then stockBrowse else s) },
    session_id := "test-1", state := State.empty, history := [],
    pending_transition := Option.none }

/-- The session after the current stage's local data is replaced: the
record `populate_state` returns (its loop folded into the new
container). -/
def update_stage_local (o : Orchestrator) (sname : String) (nl : State) : Orchestrator :=
  { o with workflow := { o.workflow with
      stages := o.workflow.stages.map (fun s =>
        if s.name == sname then { s with local_state := nl } else s) } }

/-- A single self-looping stage holding one field, its self edge
configured with the "none" policy. -/
def loopStage : Stage :=
  { name := "a", description := "Self loop", tools := [],
    local_state := ⟨[("x", Value.vNat 1)]⟩, transitions := ["a"],
    prerequisites := [] }

/-- The workflow around `loopStage`. -/
def loopWorkflow : Workflow :=
  { name := "loop", description := "", stages := [loopStage],
    initial_stage := some "a", cursor := some "a",
    incoming_edges := [("a", ["a"])],
    state_propagation := [(("a", "a"), PropagationConfig.none)] }

/-- Registration-order fixture: stages A, B, C registered in that order,
with one edge C→A, so B and C are both roots and the first-registered
stage A is not one. -/
def cexStageA : Stage :=
  { name := "A", description := "", tools := [], local_state := State.empty,
    transitions := [], prerequisites := [] }

/-- Second stage of the registration-order fixture. -/
def cexStageB : Stage :=
  { name := "B", description := "", tools := [], local_state := State.empty,
    transitions := [], prerequisites := [] }

/-- Third stage of the registration-order fixture, pointing at A. -/
def cexStageC : Stage :=
  { name := "C", description := "", tools := [], local_state := State.empty,
    transitions := ["A"], prerequisites := [] }

/-- The registration-order fixture workflow. -/
def cexWorkflow : Workflow :=
  Workflow.add_stage (Workflow.add_stage (Workflow.add_stage
    (Workflow.create "cex" "") cexStageA false) cexStageB false) cexStageC false

/-! ### Library lemmas about the embedded operations -/

/-- A key is present exactly when `get` finds a value. -/
theorem State.has_eq_isSome_get (s : State) (k : String) :
    State.has s k = (State.get s k).isSome := by
  unfold State.has State.get
  induction s.data with
  | nil => rfl
  | cons p l ih =>
    by_cases h : p.1 == k <;> simp [List.any_cons, List.find?_cons, h, ih]

/-- After overwriting every entry keyed `k` with `(k, v)`, looking `k2` up
finds `v` when `k2 = k` and some entry had key `k`, and the original
result otherwise. -/
theorem find?_map_overwrite (l : List (String × Value)) (k : String) (v : Value)
    (k2 : String) :
    ((l.map (fun p => if p.1 == k then (k, v) else p)).find?
        (fun p => p.1 == k2)).map Prod.snd
    = if k2 = k then (if l.any (fun p => p.1 == k) then some v else Option.none)
      else (l.find? (fun p => p.1 == k2)).map Prod.snd := by
  induction l with
  | nil => by_cases h : k2 = k <;> simp [h]
  | cons p t ih =>
    by_cases hp : p.1 = k
    · rw [List.map_cons, if_pos (show (p.1 == k) = true by simp [hp])]
      by_cases hk : k2 = k
      · subst hk
        rw [List.find?_cons_of_pos _ (by simp)]
        simp [List.any_cons, hp]
      · have hkk2 : (k == k2) = false := by
          simpa using fun h => hk h.symm
        have hpk2 : (p.1 == k2) = false := by
          simpa [hp] using fun h => hk h.symm
        rw [List.find?_cons_of_neg _ (by simp [hkk2]),
          List.find?_cons_of_neg _ (by simp [hpk2]), ih]
        simp [hk]
    · rw [List.map_cons, if_neg (show ¬(p.1 == k) = true by simp [hp])]
      by_cases hpk2 : p.1 = k2
      · have hk : ¬k2 = k := fun h => hp (hpk2.trans h)
        rw [List.find?_cons_of_pos _ (by simp [hpk2]),
          List.find?_cons_of_pos _ (by simp [hpk2])]
        simp [hk]
      · have hpk : (p.1 == k) = false := by simpa using hp
        rw [List.find?_cons_of_neg _ (by simp [hpk2]),
          List.find?_cons_of_neg _ (by simp [hpk2]), ih]
        by_cases hk : k2 = k
        · subst hk
          simp only [List.any_cons]
          by_cases hta : (t.any fun q => q.1 == k2) = true
          · simp [hta, hpk]
          · simp only [Bool.not_eq_true] at hta
            simp [hta, hpk]
        · rw [if_neg hk, if_neg hk]

/-- `find?` over an appended list: the left list is searched first. -/
theorem find?_append_cases {α : Type} (l1 l2 : List α) (p : α → Bool) :
    (l1 ++ l2).find? p
      = match l1.find? p with
        | some a => some a
        | Option.none => l2.find? p := by
  induction l1 with
  | nil => simp
  | cons a t ih =>
    by_cases ha : p a
    · rw [List.cons_append, List.find?_cons_of_pos _ ha, List.find?_cons_of_pos _ ha]
    · rw [List.cons_append, List.find?_cons_of_neg _ ha, List.find?_cons_of_neg _ ha, ih]

/-- `get` after `set`: the written key reads the written value, all other
keys are untouched. -/
theorem State.get_set (s : State) (k : String) (v : Value) (k2 : String) :
    State.get (State.set s k v) k2 = if k2 = k then some v else State.get s k2 := by
  unfold State.get State.set
  by_cases hmem : s.data.any (fun p => p.1 == k)
  · rw [if_pos hmem]
    dsimp only
    rw [find?_map_overwrite]
    by_cases hk : k2 = k <;> simp [hk, hmem]
  · rw [if_neg hmem]
    have hnone : s.data.find? (fun p => p.1 == k) = Option.none := by
      rw [List.find?_eq_none]
      intro q hq hqk
      exact hmem (List.any_of_mem hq hqk)
    by_cases hk : k2 = k
    · subst hk
      rw [find?_append_cases, hnone]
      simp
    · have hkk2 : (k == k2) = false := by
        simpa using fun h => hk h.symm
      rw [find?_append_cases]
      cases hfind : s.data.find? (fun p => p.1 == k2) with
      | none => simp [hkk2, hk]
      | some a => simp [hk]

/-- A state misses a key exactly when the key is not among its field
names. -/
theorem State.any_key_eq_false_iff (l : List (String × Value)) (k : String) :
    (l.any (fun p => p.1 == k)) = false ↔ k ∉ l.map Prod.fst := by
  rw [List.any_eq_false]
  constructor
  · intro h hmem
    obtain ⟨p, hp, hpk⟩ := List.mem_map.mp hmem
    exact h p hp (by simp [hpk])
  · intro h p hp hpk
    exact h (List.mem_map.mpr ⟨p, hp, by simpa using hpk⟩)

/-- Writing a sequence of key/value pairs into a state with `set`, in
order: a key absent from the pairs keeps its old value, and a key that
occurs reads the value of its last occurrence (the left fold on the
right keeps the latest match). -/
theorem State.get_foldl_set (pairs : List (String × Value)) (acc : State) (k : String) :
    State.get (pairs.foldl (fun st p => State.set st p.1 p.2) acc) k
      = pairs.foldl (fun r p => if p.1 = k then some p.2 else r) (State.get acc k) := by
  induction pairs generalizing acc with
  | nil => rfl
  | cons p rest ih =>
    rw [List.foldl_cons, List.foldl_cons, ih, State.get_set]
    by_cases hk : p.1 = k
    · simp [hk]
    · have : ¬k = p.1 := fun h => hk h.symm
      simp [hk, this]

/-- Folding the last-match update from an arbitrary start: the result is
the fold from `none` when that finds a match, else the start value. -/
theorem foldl_last_match (pairs : List (String × Value)) (k : String) (i : Option Value) :
    pairs.foldl (fun r p => if p.1 = k then some p.2 else r) i
      = match pairs.foldl (fun r p => if p.1 = k then some p.2 else r) Option.none with
        | some v => some v
        | Option.none => i := by
  induction pairs generalizing i with
  | nil => rfl
  | cons p rest ih =>
    rw [List.foldl_cons, List.foldl_cons]
    by_cases hk : p.1 = k
    · rw [if_pos hk, if_pos hk, ih (some p.2)]
      cases rest.foldl (fun r p => if p.1 = k then some p.2 else r) Option.none <;> rfl
    · rw [if_neg hk, if_neg hk, ih i]

/-- Appending fresh, mutually distinct keys with `set` just appends the
pairs to the underlying list. -/
theorem State.foldl_set_of_nodup (items : List (String × Value)) (acc : State)
    (h : (acc.data.map Prod.fst ++ items.map Prod.fst).Nodup) :
    items.foldl (fun st p => State.set st p.1 p.2) acc = ⟨acc.data ++ items⟩ := by
  induction items generalizing acc with
  | nil => simp
  | cons p rest ih =>
    have hfresh : (acc.data.any (fun q => q.1 == p.1)) = false := by
      rw [State.any_key_eq_false_iff]
      intro hmem
      rw [List.map_cons] at h
      have := (List.nodup_append.mp h).2.2
      exact this hmem (by simp)
    have hset : State.set acc p.1 p.2 = ⟨acc.data ++ [p]⟩ := by
      unfold State.set
      rw [if_neg (by simp [hfresh])]
    rw [List.foldl_cons, hset, ih]
    · simp
    · simpa using h

/-- The guarded copy loop of the field-list propagation policy: a key
reads the source's value when it is listed and present in the source,
and the accumulator's value otherwise. -/
theorem State.get_foldl_guard (src : State) (keys : List String) (acc : State) (k : String) :
    State.get (keys.foldl (fun st key =>
        match State.get src key with
        | some v => State.set st key v
        | Option.none => st) acc) k
      = if keys.contains k ∧ State.has src k then State.get src k else State.get acc k := by
  induction keys generalizing acc with
  | nil => simp
  | cons key rest ih =>
    rw [List.foldl_cons, ih]
    by_cases hkey : key = k
    · subst hkey
      by_cases hh : State.has src key
      · have hsome : (State.get src key).isSome := by
          rw [← State.has_eq_isSome_get]
          exact hh
        obtain ⟨v, hv⟩ := Option.isSome_iff_exists.mp hsome
        rw [if_pos (show (key :: rest).contains key ∧ State.has src key from
          ⟨by simp [List.contains_cons], hh⟩)]
        by_cases hrest : rest.contains key ∧ State.has src key
        · rw [if_pos hrest]
        · rw [if_neg hrest]
          simp only [hv]
          rw [State.get_set, if_pos rfl]
      · have hget : State.get src key = Option.none := by
          cases hg : State.get src key with
          | none => rfl
          | some v => exact absurd (by rw [State.has_eq_isSome_get, hg]; rfl) hh
        simp only [hget]
        rw [if_neg (fun hc => hh hc.2), if_neg (fun hc => hh hc.2)]
    · have hcont : ((key :: rest).contains k ∧ State.has src k)
          ↔ (rest.contains k ∧ State.has src k) := by
        constructor
        · rintro ⟨h1, h2⟩
          rw [List.contains_cons, Bool.or_eq_true] at h1
          rcases h1 with h1 | h1
          · have hk2 : k = key := by simpa using h1
            exact absurd hk2.symm hkey
          · exact ⟨h1, h2⟩
        · rintro ⟨h1, h2⟩
          refine ⟨?_, h2⟩
          rw [List.contains_cons, Bool.or_eq_true]
          exact Or.inr h1
      cases hg : State.get src key with
      | none =>
        simp only [hg]
        by_cases hrest : rest.contains k ∧ State.has src k
        · rw [if_pos hrest, if_pos (hcont.mpr hrest)]
        · rw [if_neg hrest, if_neg (fun hc => hrest (hcont.mp hc))]
      | some v =>
        simp only [hg]
        by_cases hrest : rest.contains k ∧ State.has src k
        · rw [if_pos hrest, if_pos (hcont.mpr hrest)]
        · rw [if_neg hrest, if_neg (fun hc => hrest (hcont.mp hc)),
            State.get_set, if_neg (fun h => hkey h.symm)]

/-- A key is listed in `State.keys` exactly when the state has it. -/
theorem State.mem_keys_iff_has (s : State) (f : String) :
    f ∈ State.keys s ↔ State.has s f = true := by
  unfold State.keys State.has
  rw [List.any_eq_true]
  constructor
  · intro hmem
    obtain ⟨p, hp, hpk⟩ := List.mem_map.mp hmem
    exact ⟨p, hp, by simp [hpk]⟩
  · rintro ⟨p, hp, hpk⟩
    exact List.mem_map.mpr ⟨p, hp, by simpa using hpk⟩

/-- A field is reported missing by `Stage.get_missing_prerequisites`
exactly when some prerequisite construct requires it, the (global) state
does not have it, and the propagation policy applied to the source's
local data does not satisfy it. -/
theorem mem_get_missing_prerequisites (t : Stage) (st src : State)
    (cfg : PropagationConfig) (f : String) :
    f ∈ Stage.get_missing_prerequisites t st (some src) (some cfg)
      ↔ (∃ p ∈ t.prerequisites, f ∈ p.model_fields)
        ∧ State.has st f = false
        ∧ ¬satisfied_by_propagation cfg src f := by
  unfold Stage.get_missing_prerequisites
  rw [List.mem_flatten]
  constructor
  · rintro ⟨l, hl, hf⟩
    obtain ⟨p, hp, rfl⟩ := List.mem_map.mp hl
    rw [List.mem_filter] at hf
    obtain ⟨hfmem, hcond⟩ := hf
    rw [Bool.and_eq_true, Bool.not_eq_true', Bool.not_eq_true'] at hcond
    refine ⟨⟨p, hp, hfmem⟩, hcond.1, ?_⟩
    intro hsat
    have hcontains : f ∉ (match cfg with
        | PropagationConfig.all => State.keys src
        | PropagationConfig.none => []
        | PropagationConfig.fields l => l.filter (fun f => State.has src f)
        | PropagationConfig.other _ => []) := by
      have h2 := hcond.2
      simpa using h2
    cases cfg with
    | all =>
      exact hcontains ((State.mem_keys_iff_has src f).mpr hsat)
    | none => exact hsat
    | fields l =>
      obtain ⟨hmem, hhas⟩ := hsat
      exact hcontains (List.mem_filter.mpr ⟨hmem, hhas⟩)
    | other s => exact hsat
  · rintro ⟨⟨p, hp, hfmem⟩, hhas, hsat⟩
    refine ⟨p.model_fields.filter _, List.mem_map.mpr ⟨p, hp, rfl⟩, ?_⟩
    rw [List.mem_filter]
    refine ⟨hfmem, ?_⟩
    rw [Bool.and_eq_true, Bool.not_eq_true', Bool.not_eq_true']
    refine ⟨hhas, ?_⟩
    rw [show ∀ (l : List String), (l.contains f = false) ↔ f ∉ l from fun l => by simp]
    intro hmem
    cases cfg with
    | all =>
      exact hsat (State.mem_keys_iff_has src f |>.mp hmem)
    | none => simp at hmem
    | fields l =>
      rw [List.mem_filter] at hmem
      exact hsat ⟨hmem.1, hmem.2⟩
    | other s => simp at hmem

/-- Replacing the entries named `c` in a stage list, when the
replacement is again named `c`, commutes with looking `c` up. -/
theorem find?_name_map_update (l : List Stage) (c : String) (g : Stage → Stage)
    (hg : ∀ s, s.name = c → (g s).name = c) :
    (l.map (fun s => if s.name == c then g s else s)).find? (fun s => s.name == c)
      = (l.find? (fun s => s.name == c)).map g := by
  induction l with
  | nil => rfl
  | cons s t ih =>
    by_cases hs : s.name = c
    · rw [List.map_cons, if_pos (by simpa using hs),
        List.find?_cons_of_pos _ (by simpa using hg s hs),
        List.find?_cons_of_pos _ (by simpa using hs)]
      rfl
    · rw [List.map_cons, if_neg (by simpa using hs),
        List.find?_cons_of_neg _ (by simpa using hs),
        List.find?_cons_of_neg _ (by simpa using hs), ih]

/-- Replacing the entries named `c` with a fixed stage again named `c`
commutes with looking `c` up. -/
theorem find?_map_const_replace (l : List Stage) (c : String) (nt : Stage)
    (hnt : nt.name = c) :
    (l.map (fun s => if s.name == c then nt else s)).find? (fun s => s.name == c)
      = (l.find? (fun s => s.name == c)).map (fun _ => nt) :=
  find?_name_map_update l c (fun _ => nt) (fun _ _ => hnt)

/-- Replacing the entries named `b` leaves lookups of a different name
`a` unchanged, when the replacement is again named `b`. -/
theorem find?_name_map_other (l : List Stage) (b a : String) (nt : Stage)
    (hnt : nt.name = b) (hne : ¬b = a) :
    (l.map (fun s => if s.name == b then nt else s)).find? (fun s => s.name == a)
      = l.find? (fun s => s.name == a) := by
  induction l with
  | nil => rfl
  | cons s t ih =>
    by_cases hs : s.name = b
    · have hsa : ¬s.name = a := by rw [hs]; exact hne
      rw [List.map_cons, if_pos (by simpa using hs),
        List.find?_cons_of_neg _ (by simp [hnt, hne]),
        List.find?_cons_of_neg _ (by simpa using hsa), ih]
    · rw [List.map_cons, if_neg (by simpa using hs)]
      by_cases hsa : s.name = a
      · rw [List.find?_cons_of_pos _ (by simpa using hsa),
          List.find?_cons_of_pos _ (by simpa using hsa)]
      · rw [List.find?_cons_of_neg _ (by simpa using hsa),
          List.find?_cons_of_neg _ (by simpa using hsa), ih]

/-- A successful `get_stage` returns the first stage of that name, with
that name. -/
theorem get_stage_ok (w : Workflow) (c : String) (st : Stage)
    (h : Workflow.get_stage w c = Except.ok st) :
    w.stages.find? (fun s => s.name == c) = some st ∧ st.name = c := by
  unfold Workflow.get_stage at h
  cases hfind : w.stages.find? (fun s => s.name == c) with
  | none => rw [hfind] at h; exact absurd h (by simp)
  | some s =>
    rw [hfind] at h
    have hs : s = st := by
      cases h
      rfl
    subst hs
    exact ⟨rfl, by simpa using List.find?_some hfind⟩

/-- Bind on a successful `Except` computes the continuation. -/
theorem exbind_ok {ε α β : Type} (a : α) (f : α → Except ε β) :
    (Except.ok a : Except ε α) >>= f = f a := rfl

/-- Bind on a failed `Except` propagates the exception. -/
theorem exbind_error {ε α β : Type} (e : ε) (f : α → Except ε β) :
    (Except.error e : Except ε α) >>= f = Except.error e := rfl

/-- Map on a successful `Except`. -/
theorem exmap_ok {ε α β : Type} (f : α → β) (a : α) :
    f <$> (Except.ok a : Except ε α) = Except.ok (f a) := rfl

/-- Map on a failed `Except`. -/
theorem exmap_error {ε α β : Type} (f : α → β) (e : ε) :
    f <$> (Except.error e : Except ε α) = Except.error e := rfl

/-- `pure` for `Except` is `ok`. -/
theorem expure {ε α : Type} (a : α) : (pure a : Except ε α) = Except.ok a := rfl

/-- A successful `get_current_stage` exposes the cursor name, the lookup
and the name agreement. -/
theorem get_current_stage_ok (o : Orchestrator) (st : Stage)
    (h : Orchestrator.get_current_stage o = Except.ok st) :
    ∃ c, o.workflow.cursor = some c
      ∧ o.workflow.stages.find? (fun s => s.name == c) = some st
      ∧ st.name = c := by
  unfold Orchestrator.get_current_stage at h
  cases hc : o.workflow.cursor with
  | none => rw [hc] at h; exact absurd h (by simp)
  | some c =>
    rw [hc] at h
    obtain ⟨hfind, hname⟩ := get_stage_ok _ _ _ h
    exact ⟨c, rfl, hfind, hname⟩

/-- Replacing the current stage's local data leaves the cursor resolving
to the same stage with the new data installed. -/
theorem get_current_stage_after_update (o : Orchestrator) (st : Stage) (nl : State)
    (hcur : Orchestrator.get_current_stage o = Except.ok st) :
    Orchestrator.get_current_stage (update_stage_local o st.name nl)
      = Except.ok { st with local_state := nl } := by
  obtain ⟨c, hc, hfind, hname⟩ := get_current_stage_ok o st hcur
  have hc2 : o.workflow.cursor = some st.name := by rw [hname]; exact hc
  have hfind2 : o.workflow.stages.find? (fun s => s.name == st.name) = some st := by
    rw [hname]; exact hfind
  unfold Orchestrator.get_current_stage update_stage_local
  dsimp only
  rw [hc2]
  unfold Workflow.get_stage
  dsimp only
  rw [find?_name_map_update o.workflow.stages st.name]
  · rw [hfind2]
    rfl
  · exact fun s hs => hs

/-- A stage contributes nothing to the reverse-edge list for `t` exactly
when its transitions avoid `t`: the reverse-edge list for `t` is empty
exactly when no stage lists `t` as a target. -/
theorem incoming_for_isEmpty (l : List Stage) (t : String) :
    (Workflow.incoming_for l t).isEmpty
      = l.all (fun s => !(s.transitions.contains t)) := by
  rw [Bool.eq_iff_iff, List.isEmpty_eq_true, List.all_eq_true]
  unfold Workflow.incoming_for
  rw [List.flatten_eq_nil_iff]
  constructor
  · intro hall s hs
    have hnil := hall _ (List.mem_map.mpr ⟨s, hs, rfl⟩)
    rw [List.map_eq_nil_iff, List.filter_eq_nil_iff] at hnil
    rw [Bool.not_eq_true']
    by_contra hc
    rw [Bool.not_eq_false] at hc
    have hmem : t ∈ s.transitions := by simpa using hc
    exact hnil t hmem (by simp)
  · intro hall x hx
    obtain ⟨s, hs, rfl⟩ := List.mem_map.mp hx
    rw [List.map_eq_nil_iff, List.filter_eq_nil_iff]
    intro a ha hat
    have hat2 : a = t := by simpa using hat
    subst hat2
    have hfalse := hall s hs
    rw [Bool.not_eq_true'] at hfalse
    have hcontains : s.transitions.contains a = true := by simpa using ha
    rw [hfalse] at hcontains
    exact absurd hcontains (by simp)

/-- The root list computed by `initialize` (names whose reverse-edge list
is empty, in registration order) is the list of names of stages no stage
transitions into. -/
theorem roots_names (l : List Stage) :
    (((l.map (fun s => (s.name, Workflow.incoming_for l s.name))).filter
        (fun p => p.2.isEmpty)).map (fun p => p.1))
      = (l.filter (fun s => l.all (fun x => !(x.transitions.contains s.name)))).map
          (fun s => s.name) := by
  rw [List.filter_map, List.map_map]
  rw [List.filter_congr (fun s _ => incoming_for_isEmpty l s.name)]
  rfl

/-- `find?` returns the head of the filtered list. -/
theorem find?_eq_filter_head? {α : Type} (l : List α) (p : α → Bool) :
    l.find? p = (l.filter p).head? := by
  induction l with
  | nil => rfl
  | cons a t ih =>
    by_cases ha : p a
    · rw [List.find?_cons_of_pos _ ha, List.filter_cons_of_pos ha]
      rfl
    · rw [List.find?_cons_of_neg _ ha, List.filter_cons_of_neg ha, ih]

/-- The head of the root list `initialize` computes (over the reset
stage list) is the name of the first registration-order root of the
original workflow, when one exists. -/
theorem reset_roots_head (w : Workflow) :
    ((((Workflow.build_incoming_edges { w with stages := w.stages.map (fun s => { s with local_state := State.empty }) }).filter
        (fun p => p.2.isEmpty)).map (fun p => p.1)).head?)
      = (first_root? w).map (fun s => s.name) := by
  unfold Workflow.build_incoming_edges first_root?
  dsimp only
  rw [roots_names]
  rw [List.filter_map, List.map_map]
  have hcong : ∀ s ∈ w.stages,
      ((fun s2 : Stage => (w.stages.map (fun s3 => { s3 with
          local_state := State.empty })).all
        (fun x => !(x.transitions.contains s2.name)))
        ∘ (fun s2 : Stage => { s2 with local_state := State.empty })) s
      = (fun s2 : Stage => w.stages.all
          (fun x => !(x.transitions.contains s2.name))) s := by
    intro s _
    show (w.stages.map _).all _ = w.stages.all _
    rw [List.all_map]
    rfl
  rw [List.filter_congr hcong]
  rw [List.head?_map, ← find?_eq_filter_head?]
  rfl

/-! ### The claims -/

/-- C1: when a transition targets a legal outgoing edge of the current
stage but the target's prerequisite fields are not all satisfied by
global data plus the edge's propagation of the source's local data, the
orchestrator sets the pending-transition slot to the target's name and
returns a `StateInputRequiredResult` listing exactly the missing fields;
the resulting session differs from the original only in that slot — the
cursor, every stage's local data, global data and history are untouched
(no commit).  The final conjunct characterizes the reported fields:
exactly the prerequisite fields absent from global data and not
satisfied by the propagation policy. -/
theorem C1_missing_prerequisites_defer (o : Orchestrator) (dest : String)
    (st tgt : Stage) (missing : List String)
    (hcur : Orchestrator.get_current_stage o = Except.ok st)
    (hedge : Stage.can_transition_to st dest = true)
    (htgt : Workflow.get_stage o.workflow dest = Except.ok tgt)
    (hmiss : missing = Stage.get_missing_prerequisites tgt o.state (some st.local_state)
        (some (Workflow.get_propagation_config o.workflow st.name dest)))
    (hne : missing ≠ []) :
    Orchestrator.execute_stage_transition o dest
      = Except.ok (EngineResult.state_input_required dest
          ("To transition to '" ++ dest ++ "', please provide: " ++ pyListRepr missing)
          missing,
          { o with pending_transition := some dest })
    ∧ (∀ f, f ∈ missing ↔
        ((∃ p ∈ tgt.prerequisites, f ∈ p.model_fields)
          ∧ State.has o.state f = false
          ∧ ¬satisfied_by_propagation
              (Workflow.get_propagation_config o.workflow st.name dest)
              st.local_state f)) := by
  have hcur' : ∃ c, o.workflow.cursor = some c
      ∧ Workflow.get_stage o.workflow c = Except.ok st := by
    unfold Orchestrator.get_current_stage at hcur
    cases hc : o.workflow.cursor with
    | none => rw [hc] at hcur; exact absurd hcur (by simp)
    | some c => rw [hc] at hcur; exact ⟨c, rfl, hcur⟩
  obtain ⟨c, hc, hstc⟩ := hcur'
  obtain ⟨hfindc, hnamec⟩ := get_stage_ok _ _ _ hstc
  have hstname : Workflow.get_stage o.workflow st.name = Except.ok st := by
    rw [hnamec]
    exact hstc
  have hempty : missing.isEmpty = false := by
    rw [List.isEmpty_eq_false]
    exact hne
  have hval : Workflow.validate_transition o.workflow st.name dest o.state
      = Except.ok (ValidationResult.missing_state
          ("Stage '" ++ dest ++ "' requires: " ++ pyListRepr missing) missing) := by
    unfold Workflow.validate_transition Workflow.can_transition
    rw [hstname]
    show ((Except.ok st).map (fun s => Stage.can_transition_to s dest) >>= _) = _
    rw [show (Except.ok st).map (fun s => Stage.can_transition_to s dest)
        = (Except.ok (Stage.can_transition_to st dest) : Except PyError Bool) from rfl,
      exbind_ok, hedge]
    rw [show (!true) = false from rfl]
    rw [if_neg (by simp)]
    rw [exbind_ok, htgt, exbind_ok]
    dsimp only
    rw [← hmiss, hempty]
    rw [if_neg (by simp)]
    rfl
  unfold Orchestrator.execute_stage_transition
  rw [hcur, exbind_ok, hval, exbind_ok]
  refine ⟨rfl, fun f => ?_⟩
  rw [hmiss]
  exact mem_get_missing_prerequisites tgt o.state st.local_state _ f

/-- C1 witness: on the stock session, a transition from browse to
transact under the `["symbol", "quantity"]` policy with only `symbol`
present defers with exactly `["quantity"]` missing, recording the
pending transition. -/
theorem C1_witness :
    Stage.can_transition_to stockBrowse "transact" = true
    ∧ (["quantity"] : List String) ≠ []
    ∧ Orchestrator.execute_stage_transition stockOrch "transact"
      = Except.ok (EngineResult.state_input_required "transact"
          "To transition to 'transact', please provide: ['quantity']"
          ["quantity"],
          { stockOrch with pending_transition := some "transact" }) :=
  ⟨by decide, by decide,
    (C1_missing_prerequisites_defer stockOrch "transact" stockBrowse transactStage
      ["quantity"] rfl (by decide) rfl rfl (by decide)).1⟩

/-- What `transition_to` installs as the destination's local data, per
propagation policy (shared between the propagation claims). -/
theorem transition_to_propagation (w : Workflow) (dest cname : String) (src tgt : Stage)
    (hcur : w.cursor = some cname)
    (hsrc : Workflow.get_stage w cname = Except.ok src)
    (htgt : Workflow.get_stage w dest = Except.ok tgt) :
    ∃ w1 installed, Workflow.transition_to w dest = Except.ok (w1, installed)
      ∧ Workflow.get_stage w1 dest = Except.ok installed
      ∧ (Workflow.get_propagation_config w src.name dest = PropagationConfig.all →
          (src.local_state.data.map Prod.fst).Nodup →
          installed.local_state = src.local_state)
      ∧ (Workflow.get_propagation_config w src.name dest = PropagationConfig.none →
          installed.local_state = State.empty)
      ∧ (∀ l, Workflow.get_propagation_config w src.name dest = PropagationConfig.fields l →
          ∀ k, State.get installed.local_state k
            = if l.contains k ∧ State.has src.local_state k
              then State.get src.local_state k
              else Option.none) := by
  obtain ⟨hfsrc, hnsrc⟩ := get_stage_ok _ _ _ hsrc
  obtain ⟨hftgt, hntgt⟩ := get_stage_ok _ _ _ htgt
  unfold Workflow.transition_to
  rw [htgt, exbind_ok, hcur]
  rw [show (some cname).bind (fun c => w.stages.find? (fun s => s.name == c))
      = w.stages.find? (fun s => s.name == cname) from rfl]
  rw [hfsrc]
  dsimp only
  refine ⟨_, _, rfl, ?_, ?_, ?_, ?_⟩
  · unfold Workflow.get_stage
    dsimp only
    rw [find?_map_const_replace w.stages dest]
    · rw [hftgt]
      rfl
    · exact hntgt
  · intro hcfg hnodup
    rw [hcfg]
    dsimp only
    rw [State.foldl_set_of_nodup src.local_state.data State.empty (by simpa using hnodup)]
    rfl
  · intro hcfg
    rw [hcfg]
  · intro l hcfg k
    rw [hcfg]
    dsimp only
    rw [State.get_foldl_guard]
    rfl

/-- C2: committing a transition along an edge with an explicit
propagation policy installs, as the destination stage's local data:
under "all" (given the unique-field-names invariant on the source's
container) exactly the source stage's local data at commit time; under
"none" the empty container; under an explicit field list exactly the
listed fields present in the source's local data, with the source's
values (characterized by `get`: any other key reads nothing). -/
theorem C2_propagation_policies (w : Workflow) (dest cname : String) (src tgt : Stage)
    (hcur : w.cursor = some cname)
    (hsrc : Workflow.get_stage w cname = Except.ok src)
    (htgt : Workflow.get_stage w dest = Except.ok tgt) :
    ∃ w1 installed, Workflow.transition_to w dest = Except.ok (w1, installed)
      ∧ Workflow.get_stage w1 dest = Except.ok installed
      ∧ (Workflow.get_propagation_config w src.name dest = PropagationConfig.all →
          (src.local_state.data.map Prod.fst).Nodup →
          installed.local_state = src.local_state)
      ∧ (Workflow.get_propagation_config w src.name dest = PropagationConfig.none →
          installed.local_state = State.empty)
      ∧ (∀ l, Workflow.get_propagation_config w src.name dest = PropagationConfig.fields l →
          ∀ k, State.get installed.local_state k
            = if l.contains k ∧ State.has src.local_state k
              then State.get src.local_state k
              else Option.none) :=
  transition_to_propagation w dest cname src tgt hcur hsrc htgt

/-- C2 witness: from browse (holding `last_search` and `symbol`) to
transact under the explicit policy `["symbol", "quantity"]`, the
installed destination data reads `symbol` with the source's value and
nothing for `quantity` or `last_search`. -/
theorem C2_witness :
    stockOrch.workflow.cursor = some "browse"
    ∧ Workflow.get_stage stockOrch.workflow "browse" = Except.ok stockBrowse
    ∧ Workflow.get_stage stockOrch.workflow "transact" = Except.ok transactStage
    ∧ (∃ w1 installed,
        Workflow.transition_to stockOrch.workflow "transact" = Except.ok (w1, installed)
        ∧ Workflow.get_stage w1 "transact" = Except.ok installed
        ∧ (Workflow.get_propagation_config stockOrch.workflow stockBrowse.name "transact"
              = PropagationConfig.all →
            (stockBrowse.local_state.data.map Prod.fst).Nodup →
            installed.local_state = stockBrowse.local_state)
        ∧ (Workflow.get_propagation_config stockOrch.workflow stockBrowse.name "transact"
              = PropagationConfig.none →
            installed.local_state = State.empty)
        ∧ (∀ l, Workflow.get_propagation_config stockOrch.workflow stockBrowse.name "transact"
              = PropagationConfig.fields l →
            ∀ k, State.get installed.local_state k
              = if l.contains k ∧ State.has stockBrowse.local_state k
                then State.get stockBrowse.local_state k
                else Option.none)) :=
  ⟨rfl, rfl, rfl,
    C2_propagation_policies stockOrch.workflow "transact" "browse" stockBrowse
      transactStage rfl rfl rfl⟩

/-- C3: for every transition action whose validation does not return
success — whether because the target is not a legal edge, prerequisites
are missing, or the lookup itself raises — the workflow record, and with
it the cursor and every stage's local data, is identical before and
after the dispatched call: validation never mutates state. -/
theorem C3_failed_validation_mutates_nothing (o : Orchestrator) (dest : String)
    (h : ∀ st, Orchestrator.get_current_stage o = Except.ok st →
      Workflow.validate_transition o.workflow st.name dest o.state
        ≠ Except.ok ValidationResult.valid) :
    (LanguageEngine.process o (ActionInput.stage_transition dest)).2.workflow = o.workflow
    ∧ (LanguageEngine.process o (ActionInput.stage_transition dest)).2.workflow.cursor
        = o.workflow.cursor
    ∧ ∀ n, Workflow.get_stage
        (LanguageEngine.process o (ActionInput.stage_transition dest)).2.workflow n
        = Workflow.get_stage o.workflow n := by
  have hmain :
      (LanguageEngine.process o (ActionInput.stage_transition dest)).2.workflow
        = o.workflow := by
    unfold LanguageEngine.process
    cases hex : Orchestrator.execute_stage_transition o dest with
    | error e => simp [hex]
    | ok ro =>
      obtain ⟨r, o1⟩ := ro
      have ho1 : o1.workflow = o.workflow := by
        unfold Orchestrator.execute_stage_transition at hex
        cases hcur : Orchestrator.get_current_stage o with
        | error e =>
          rw [hcur, exbind_error] at hex
          exact absurd hex (by simp)
        | ok st =>
          rw [hcur, exbind_ok] at hex
          cases hval : Workflow.validate_transition o.workflow st.name dest o.state with
          | error e =>
            rw [hval, exbind_error] at hex
            exact absurd hex (by simp)
          | ok v =>
            rw [hval, exbind_ok] at hex
            cases v with
            | missing_state err missing =>
              simp only [expure] at hex
              cases hex
              rfl
            | invalid_edge err allowed =>
              simp only [expure] at hex
              cases hex
              rfl
            | valid => exact absurd hval (h st hcur)
      cases r <;> simp [hex, ho1]
  exact ⟨hmain, by rw [hmain], fun n => by rw [hmain]⟩

/-- C3 witness: on the stock session, a transition request to the
transact stage (whose `symbol`/`quantity` prerequisite is not fully
satisfied) fails validation and leaves the workflow untouched. -/
theorem C3_witness :
    (∀ st, Orchestrator.get_current_stage stockOrch = Except.ok st →
      Workflow.validate_transition stockOrch.workflow st.name "transact" stockOrch.state
        ≠ Except.ok ValidationResult.valid)
    ∧ (LanguageEngine.process stockOrch (ActionInput.stage_transition "transact")).2.workflow
        = stockOrch.workflow := by
  have h : ∀ st, Orchestrator.get_current_stage stockOrch = Except.ok st →
      Workflow.validate_transition stockOrch.workflow st.name "transact" stockOrch.state
        ≠ Except.ok ValidationResult.valid := by
    intro st hst
    have hstb : st = stockBrowse := by
      cases hst
      rfl
    subst hstb
    intro hc
    have hval : Workflow.validate_transition stockOrch.workflow "browse" "transact"
        stockOrch.state
        = Except.ok (ValidationResult.missing_state
            "Stage 'transact' requires: ['quantity']" ["quantity"]) := rfl
    rw [show stockBrowse.name = "browse" from rfl, hval] at hc
    exact absurd hc (by simp)
  exact ⟨h, (C3_failed_validation_mutates_nothing stockOrch "transact" h).1⟩

/-- C4: as `orchestrator.py` is written, every `method_call` action
raises `AttributeError` — line 43 calls `self.workflow.call_task`, but
`Workflow` only defines `call_tool` (and line 11's `TaskResult` import
has no counterpart in `results.py`) — so the dispatcher converts it to a
raw error and the orchestrator, its history included, is unchanged: no
operation call can ever append to history, although the repository's own
test `test_stock_workflow_full_conversation` asserts `len(orch.history)
== 4` after three method calls and one transition. -/
theorem C4_method_call_raises_and_appends_nothing (o : Orchestrator) (tool : String)
    (args : List (String × Value)) :
    LanguageEngine.process o (ActionInput.method_call tool args)
      = (Rendered.raw_error "'Workflow' object has no attribute 'call_task'", o) := rfl

/-- C5 counterexample: in a workflow with stages A, B, C registered in
that order and one edge C→A, stages B and C are both roots (more than
one stage with zero incoming edges), and `initialize` leaves the cursor
on B — the first root in registration order — not on the
first-registered stage A as the claim states for the multi-root case. -/
theorem C5_counterexample :
    (((Workflow.build_incoming_edges cexWorkflow).filter
        (fun p => p.2.isEmpty)).map (fun p => p.1)) = ["B", "C"]
    ∧ cexWorkflow.stages.head?.map (fun s => s.name) = some "A"
    ∧ ( Workflow.initialize cexWorkflow).map (fun w => w.cursor) = some (some "B")
    ∧ ("B" : String) ≠ "A" :=
  ⟨rfl, rfl, rfl, by decide⟩

/-- C5 amended: for every workflow with at least one registered stage,
`initialize` succeeds, resets every stage's local data to empty, and
puts the cursor on the first stage in registration order with zero
incoming edges when at least one such stage exists (in particular the
unique root when exactly one exists); only when no stage is without
incoming edges does it fall back to the first-registered stage.  This is
deterministic given a fixed registration order, as `initialize` is a
function of the workflow value. -/
theorem C5_root_selection (w : Workflow) (h : w.stages ≠ []) :
    (∃ w1, Workflow.initialize w = some w1)
    ∧ ∀ w1, Workflow.initialize w = some w1 →
        (∀ s ∈ w1.stages, s.local_state = State.empty)
        ∧ (∀ r, first_root? w = some r → w1.cursor = some r.name)
        ∧ (first_root? w = Option.none →
            w1.cursor = w.stages.head?.map (fun s => s.name)) := by
  have hhead := reset_roots_head w
  cases hfr : first_root? w with
  | some r =>
    rw [hfr] at hhead
    constructor
    · cases hini : Workflow.initialize w with
      | some w1 => exact ⟨w1, rfl⟩
      | none =>
        unfold Workflow.initialize at hini
        dsimp only at hini
        rw [hhead] at hini
        exact Option.noConfusion hini
    · intro w1 hinit
      unfold Workflow.initialize at hinit
      dsimp only at hinit
      rw [hhead] at hinit
      cases hinit
      refine ⟨?_, ?_, ?_⟩
      · intro s hs
        have hs2 : s ∈ w.stages.map (fun s2 => { s2 with local_state := State.empty }) := hs
        obtain ⟨x, _, rfl⟩ := List.mem_map.mp hs2
        rfl
      · intro r2 hr2
        cases hr2
        rfl
      · intro hnone
        exact absurd hnone (by simp)
  | none =>
    rw [hfr] at hhead
    cases hw : w.stages with
    | nil => exact absurd hw h
    | cons s0 tl =>
      constructor
      · cases hini : Workflow.initialize w with
        | some w1 => exact ⟨w1, rfl⟩
        | none =>
          unfold Workflow.initialize at hini
          dsimp only at hini
          rw [hhead, hw] at hini
          exact Option.noConfusion hini
      · intro w1 hinit
        unfold Workflow.initialize at hinit
        dsimp only at hinit
        rw [hhead, hw] at hinit
        cases hinit
        refine ⟨?_, ?_, ?_⟩
        · intro s hs
          have hs2 : s ∈ (s0 :: tl).map (fun s2 => { s2 with local_state := State.empty }) := hs
          obtain ⟨x, _, rfl⟩ := List.mem_map.mp hs2
          rfl
        · intro r2 hr2
          exact absurd hr2 (by simp)
        · intro _
          rfl

/-- C5 witness: the stock workflow has three stages; browse is listed as
a target by transact, portfolio by browse and transact, and browse by
transact and portfolio, so no stage is without incoming edges and the
amended fallback applies: the cursor lands on the first-registered
stage, browse. -/
theorem C5_witness :
    stockWorkflow.stages ≠ []
    ∧ (∃ w1, Workflow.initialize stockWorkflow = some w1)
    ∧ (∀ w1, Workflow.initialize stockWorkflow = some w1 →
        (∀ s ∈ w1.stages, s.local_state = State.empty)
        ∧ (∀ r, first_root? stockWorkflow = some r → w1.cursor = some r.name)
        ∧ (first_root? stockWorkflow = Option.none →
            w1.cursor = stockWorkflow.stages.head?.map (fun s => s.name))) := by
  have hne : stockWorkflow.stages ≠ [] := by
    intro hc
    have hlen : stockWorkflow.stages.length = 0 := by rw [hc]; rfl
    rw [show stockWorkflow.stages.length = 3 from rfl] at hlen
    exact absurd hlen (by decide)
  have h := C5_root_selection stockWorkflow hne
  exact ⟨hne, h.1, h.2⟩

/-- C6 counterexample: a transition request from browse to the
unregistered stage "ghost" does not fail with the `UnknownStage`
`ValueError`; because "ghost" is not an outgoing edge of browse,
`validate_transition` returns the `InvalidTransition`-shaped result
("Cannot transition from … to …" with the allowed destinations), and no
exception of any kind is raised. -/
theorem C6_counterexample :
    stockOrch.workflow.stages.find? (fun s => s.name == "ghost") = Option.none
    ∧ Workflow.validate_transition stockOrch.workflow "browse" "ghost" State.empty
        = Except.ok (ValidationResult.invalid_edge
            "Cannot transition from 'browse' to 'ghost'" ["transact", "portfolio"])
    ∧ ∀ msg, Workflow.validate_transition stockOrch.workflow "browse" "ghost" State.empty
        ≠ Except.error (PyError.valueError msg) := by
  refine ⟨rfl, rfl, fun msg hc => ?_⟩
  have h : Workflow.validate_transition stockOrch.workflow "browse" "ghost" State.empty
      = Except.ok (ValidationResult.invalid_edge
          "Cannot transition from 'browse' to 'ghost'" ["transact", "portfolio"]) := rfl
  rw [h] at hc
  exact Except.noConfusion hc

/-- C6 amended: a transition request whose target stage name is not
registered fails with the `InvalidTransition` error (naming the two
stages and carrying the allowed destinations) whenever the target is
also not an outgoing edge of the source — the usual case for an unknown
name; only when the unregistered target is listed as an outgoing edge
does the lookup raise the `UnknownStage` `ValueError`. -/
theorem C6_unknown_stage_error_shape (w : Workflow) (from_stage dest : String)
    (g : State) (src : Stage)
    (hsrc : Workflow.get_stage w from_stage = Except.ok src)
    (hdest : w.stages.find? (fun s => s.name == dest) = Option.none) :
    (src.transitions.contains dest = false →
      Workflow.validate_transition w from_stage dest g
        = Except.ok (ValidationResult.invalid_edge
            ("Cannot transition from '" ++ from_stage ++ "' to '" ++ dest ++ "'")
            src.transitions))
    ∧ (src.transitions.contains dest = true →
      Workflow.validate_transition w from_stage dest g
        = Except.error (PyError.valueError
            ("Stage '" ++ dest ++ "' not found in workflow '" ++ w.name ++ "'"))) := by
  have hgd : Workflow.get_stage w dest = Except.error (PyError.valueError
      ("Stage '" ++ dest ++ "' not found in workflow '" ++ w.name ++ "'")) := by
    unfold Workflow.get_stage
    rw [hdest]
  constructor
  · intro hcont
    unfold Workflow.validate_transition Workflow.can_transition
    rw [hsrc]
    rw [show (Except.ok src).map (fun s => Stage.can_transition_to s dest)
        = (Except.ok (Stage.can_transition_to src dest) : Except PyError Bool) from rfl,
      exbind_ok]
    rw [show Stage.can_transition_to src dest = src.transitions.contains dest from rfl,
      hcont]
    rw [show (!false) = true from rfl, if_pos rfl]
    rw [exbind_ok]
    rfl
  · intro hcont
    unfold Workflow.validate_transition Workflow.can_transition
    rw [hsrc]
    rw [show (Except.ok src).map (fun s => Stage.can_transition_to s dest)
        = (Except.ok (Stage.can_transition_to src dest) : Except PyError Bool) from rfl,
      exbind_ok]
    rw [show Stage.can_transition_to src dest = src.transitions.contains dest from rfl,
      hcont]
    rw [show (!true) = false from rfl, if_neg (by simp)]
    rw [exbind_ok, hgd, exbind_error]

/-- C6 witness: "ghost" is unregistered and not an edge of browse, and
the validation returns the `InvalidTransition`-shaped result. -/
theorem C6_witness :
    stockBrowse.transitions.contains "ghost" = false
    ∧ Workflow.validate_transition stockOrch.workflow "browse" "ghost" State.empty
        = Except.ok (ValidationResult.invalid_edge
            "Cannot transition from 'browse' to 'ghost'" stockBrowse.transitions) :=
  ⟨by decide,
    (C6_unknown_stage_error_shape stockOrch.workflow "browse" "ghost" State.empty
      stockBrowse rfl rfl).1 (by decide)⟩

/-- C9 counterexample: on a committed self-loop transition (stage "a"
lists itself as a legal edge, with the "none" policy on that edge),
propagation replaces the stage's own local data: the single stage held
`{x: 1}` before the commit and holds the empty container after, so the
source stage's local data is not identical before and after the commit. -/
theorem C9_counterexample :
    (Workflow.transition_to loopWorkflow "a").map
        (fun r => r.1.stages.map (fun s => s.local_state))
      = Except.ok [State.empty]
    ∧ loopWorkflow.stages.map (fun s => s.local_state) = [⟨[("x", Value.vNat 1)]⟩]
    ∧ (State.empty : State) ≠ ⟨[("x", Value.vNat 1)]⟩ :=
  ⟨rfl, rfl, by decide⟩

/-- C9 amended: for every committed transition whose destination differs
from the current (source) stage, the source stage's record — its local
data included — is identical before and after the commit: propagation
builds the destination's data as a copy and never alters the source.  On
a self-loop the destination's fresh data replaces the source's own. -/
theorem C9_source_stage_untouched (w : Workflow) (dest cname : String) (src tgt : Stage)
    (hcur : w.cursor = some cname)
    (hsrc : Workflow.get_stage w cname = Except.ok src)
    (htgt : Workflow.get_stage w dest = Except.ok tgt)
    (hne : ¬dest = cname) :
    ∃ w1 installed, Workflow.transition_to w dest = Except.ok (w1, installed)
      ∧ Workflow.get_stage w1 cname = Except.ok src := by
  obtain ⟨hfsrc, hnsrc⟩ := get_stage_ok _ _ _ hsrc
  obtain ⟨hftgt, hntgt⟩ := get_stage_ok _ _ _ htgt
  unfold Workflow.transition_to
  rw [htgt, exbind_ok, hcur]
  rw [show (some cname).bind (fun c => w.stages.find? (fun s => s.name == c))
      = w.stages.find? (fun s => s.name == cname) from rfl]
  rw [hfsrc]
  dsimp only
  refine ⟨_, _, rfl, ?_⟩
  unfold Workflow.get_stage
  dsimp only
  rw [find?_name_map_other w.stages dest cname]
  · rw [hfsrc]
  · exact hntgt
  · exact hne

/-- C9 witness: committing browse→transact leaves the browse stage, data
included, exactly as it was. -/
theorem C9_witness :
    stockOrch.workflow.cursor = some "browse"
    ∧ ¬"transact" = "browse"
    ∧ (∃ w1 installed,
        Workflow.transition_to stockOrch.workflow "transact" = Except.ok (w1, installed)
        ∧ Workflow.get_stage w1 "browse" = Except.ok stockBrowse) :=
  ⟨rfl, by decide,
    C9_source_stage_untouched stockOrch.workflow "transact" "browse" stockBrowse
      transactStage rfl rfl rfl (by decide)⟩

/-- C10: an edge absent from the propagation-policy map gets the default
policy "all": committing along it installs a copy of the source's entire
local data as the destination's local data (given the unique-field-names
invariant), and prerequisite checking then reports exactly the fields
present neither in global data nor anywhere in the source's local data —
every field present in the source counts as satisfied. -/
theorem C10_unconfigured_edge_defaults_to_all (w : Workflow) (dest cname : String)
    (src tgt : Stage) (g : State)
    (hnocfg : w.state_propagation.find?
        (fun p => p.1.1 == src.name && p.1.2 == dest) = Option.none)
    (hcur : w.cursor = some cname)
    (hsrc : Workflow.get_stage w cname = Except.ok src)
    (htgt : Workflow.get_stage w dest = Except.ok tgt)
    (hnodup : (src.local_state.data.map Prod.fst).Nodup) :
    Workflow.get_propagation_config w src.name dest = PropagationConfig.all
    ∧ (∃ w1 installed, Workflow.transition_to w dest = Except.ok (w1, installed)
        ∧ Workflow.get_stage w1 dest = Except.ok installed
        ∧ installed.local_state = src.local_state)
    ∧ (∀ f, f ∈ Stage.get_missing_prerequisites tgt g (some src.local_state)
          (some (Workflow.get_propagation_config w src.name dest))
        ↔ ((∃ p ∈ tgt.prerequisites, f ∈ p.model_fields)
            ∧ State.has g f = false
            ∧ State.has src.local_state f = false)) := by
  have hcfg : Workflow.get_propagation_config w src.name dest = PropagationConfig.all := by
    unfold Workflow.get_propagation_config
    rw [hnocfg]
    rfl
  refine ⟨hcfg, ?_, ?_⟩
  · obtain ⟨w1, installed, heq, hget, hall, _, _⟩ :=
      transition_to_propagation w dest cname src tgt hcur hsrc htgt
    exact ⟨w1, installed, heq, hget, hall hcfg hnodup⟩
  · intro f
    rw [hcfg, mem_get_missing_prerequisites]
    constructor
    · rintro ⟨h1, h2, h3⟩
      refine ⟨h1, h2, ?_⟩
      rw [show satisfied_by_propagation PropagationConfig.all src.local_state f
          = (State.has src.local_state f = true) from rfl] at h3
      rw [Bool.not_eq_true] at h3
      exact h3
    · rintro ⟨h1, h2, h3⟩
      refine ⟨h1, h2, ?_⟩
      rw [show satisfied_by_propagation PropagationConfig.all src.local_state f
          = (State.has src.local_state f = true) from rfl]
      rw [Bool.not_eq_true]
      exact h3

/-- C7 counterexample: calling the unregistered operation
`nonexistent_tool` on the stock session does not deliver an
`ErrorResult` at all — the method-call path raises (`Workflow` has no
`call_task`) before the operation lookup, and the caller receives the
dispatcher's raw error text, which names neither the operation nor the
stage's available operation names. -/
theorem C7_counterexample :
    LanguageEngine.process stockOrch (ActionInput.method_call "nonexistent_tool" [])
      = (Rendered.raw_error "'Workflow' object has no attribute 'call_task'", stockOrch)
    ∧ ∀ msg allowed,
        (LanguageEngine.process stockOrch
          (ActionInput.method_call "nonexistent_tool" [])).1
        ≠ Rendered.error_message (EngineResult.error_result msg allowed) := by
  refine ⟨rfl, fun msg allowed hc => ?_⟩
  rw [show (LanguageEngine.process stockOrch
      (ActionInput.method_call "nonexistent_tool" [])).1
    = Rendered.raw_error "'Workflow' object has no attribute 'call_task'" from rfl] at hc
  exact Rendered.noConfusion hc

/-- C7 amended: the workflow layer, `Workflow.call_tool`, answers an
unknown operation name with an error payload whose message names the
unknown operation and the current stage and which carries the stage's
actually-available operation names — but the orchestrator's method-call
path never reaches it (the incomplete tool→task rename makes every
`execute_method_call` raise `AttributeError`), and as the test
`test_stock_workflow_invalid_tool` records, even the pre-rename
orchestrator put only the message, not the available-operation list,
into the `ErrorResult` handed to the caller. -/
theorem C7_unknown_operation_error (w : Workflow) (stage_name tool_name : String)
    (args : List (String × Value)) (stage : Stage)
    (hstage : Workflow.get_stage w stage_name = Except.ok stage)
    (htool : stage.tools.find? (fun t => t.name == tool_name) = Option.none) :
    Workflow.call_tool w stage_name tool_name args
      = Except.ok (ToolCallOutcome.error
          ("Tool '" ++ tool_name ++ "' not found in stage '" ++ stage.name ++ "'")
          (stage.tools.map (fun t => t.name)), w)
    ∧ (∀ o, Orchestrator.execute_method_call o tool_name args
        = Except.error (PyError.attributeError
            "'Workflow' object has no attribute 'call_task'")) := by
  constructor
  · unfold Workflow.call_tool
    rw [hstage, exbind_ok, htool]
    rfl
  · intro o
    rfl

/-- C7 witness: on the stock session, the browse stage has no
`nonexistent_tool`, and `call_tool` reports it with the available
operation name list `["search"]`. -/
theorem C7_witness :
    stockBrowse.tools.find? (fun t => t.name == "nonexistent_tool") = Option.none
    ∧ Workflow.call_tool stockOrch.workflow "browse" "nonexistent_tool" []
        = Except.ok (ToolCallOutcome.error
            "Tool 'nonexistent_tool' not found in stage 'browse'"
            ["search"], stockOrch.workflow) := by
  have h := C7_unknown_operation_error stockOrch.workflow "browse" "nonexistent_tool" []
    stockBrowse rfl rfl
  exact ⟨rfl, h.1⟩

/-- C8: a `data_supply` (`state_input`) action writes each supplied
key/value pair, in order, into the current stage's local data — an
existing key's value is overwritten, so the last occurrence of a key
wins — returns the rendered context of the (unchanged) current stage,
and retries nothing: global data, the cursor, the pending-transition
slot and the history are all unchanged. -/
theorem C8_data_supply_semantics (o : Orchestrator) (data : List (String × Value))
    (st : Stage)
    (hcur : Orchestrator.get_current_stage o = Except.ok st) :
    ∃ st1,
      Orchestrator.get_current_stage
          (LanguageEngine.process o (ActionInput.state_input data)).2 = Except.ok st1
      ∧ (LanguageEngine.process o (ActionInput.state_input data)).1
          = Rendered.stage_message st1.name st1.local_state
      ∧ st1.name = st.name
      ∧ st1.local_state = data.foldl (fun acc p => State.set acc p.1 p.2) st.local_state
      ∧ (∀ k, State.get st1.local_state k
          = match data.foldl (fun r p => if p.1 = k then some p.2 else r) Option.none with
            | some v => some v
            | Option.none => State.get st.local_state k)
      ∧ (LanguageEngine.process o (ActionInput.state_input data)).2.workflow.cursor
          = o.workflow.cursor
      ∧ (LanguageEngine.process o (ActionInput.state_input data)).2.state = o.state
      ∧ (LanguageEngine.process o (ActionInput.state_input data)).2.pending_transition
          = o.pending_transition
      ∧ (LanguageEngine.process o (ActionInput.state_input data)).2.history
          = o.history := by
  have hpop : Orchestrator.populate_state o data
      = Except.ok (update_stage_local o st.name
          (data.foldl (fun acc p => State.set acc p.1 p.2) st.local_state)) := by
    unfold Orchestrator.populate_state
    rw [hcur, exbind_ok]
    rfl
  have hst1 := get_current_stage_after_update o st
    (data.foldl (fun acc p => State.set acc p.1 p.2) st.local_state) hcur
  have hps : LanguageEngine.process o (ActionInput.state_input data)
      = (Rendered.stage_message st.name
          (data.foldl (fun acc p => State.set acc p.1 p.2) st.local_state),
        update_stage_local o st.name
          (data.foldl (fun acc p => State.set acc p.1 p.2) st.local_state)) := by
    unfold LanguageEngine.process
    dsimp only
    rw [hpop]
    dsimp only
    rw [hst1]
  refine ⟨{ st with
      local_state := data.foldl (fun acc p => State.set acc p.1 p.2) st.local_state },
    ?_, ?_, rfl, rfl, ?_, ?_, ?_, ?_, ?_⟩
  · rw [hps]
    exact hst1
  · rw [hps]
  · intro k
    dsimp only
    rw [State.get_foldl_set, foldl_last_match]
  · rw [hps]
    rfl
  · rw [hps]
    rfl
  · rw [hps]
    rfl
  · rw [hps]
    rfl

/-- C8 witness: supplying `quantity` twice (10 then 25) on the stock
session leaves the browse stage with the later value, the original
fields intact, and the rest of the session unchanged. -/
theorem C8_witness :
    Orchestrator.get_current_stage stockOrch = Except.ok stockBrowse
    ∧ (∃ st1,
        Orchestrator.get_current_stage
            (LanguageEngine.process stockOrch (ActionInput.state_input
              [("quantity", Value.vNat 10), ("quantity", Value.vNat 25)])).2
          = Except.ok st1
        ∧ st1.local_state
            = [("quantity", Value.vNat 10), ("quantity", Value.vNat 25)].foldl
                (fun acc p => State.set acc p.1 p.2) stockBrowse.local_state
        ∧ (LanguageEngine.process stockOrch (ActionInput.state_input
              [("quantity", Value.vNat 10), ("quantity", Value.vNat 25)])).2.history
            = stockOrch.history) := by
  have h := C8_data_supply_semantics stockOrch
    [("quantity", Value.vNat 10), ("quantity", Value.vNat 25)] stockBrowse rfl
  obtain ⟨st1, h1, _h2, _h3, h4, _h5, _h6, _h7, _h8, h9⟩ := h
  exact ⟨rfl, st1, h1, h4, h9⟩

/-- C10 witness: browse→portfolio has no policy entry, so the policy is
"all"; committing installs browse's full data on portfolio, and only
fields absent from both global data and browse's data are missing. -/
theorem C10_witness :
    stockOrch.workflow.state_propagation.find?
        (fun p => p.1.1 == stockBrowse.name && p.1.2 == "portfolio") = Option.none
    ∧ (stockBrowse.local_state.data.map Prod.fst).Nodup
    ∧ Workflow.get_propagation_config stockOrch.workflow stockBrowse.name "portfolio"
        = PropagationConfig.all
    ∧ (∃ w1 installed,
        Workflow.transition_to stockOrch.workflow "portfolio" = Except.ok (w1, installed)
        ∧ Workflow.get_stage w1 "portfolio" = Except.ok installed
        ∧ installed.local_state = stockBrowse.local_state) := by
  have h := C10_unconfigured_edge_defaults_to_all stockOrch.workflow "portfolio" "browse"
    stockBrowse portfolioStage State.empty rfl rfl rfl rfl (by decide)
  exact ⟨rfl, by decide, h.1, h.2.1⟩

end Concierge
